import Mathlib

/-!
Verification of the ExtendedDiningHall reliability harness.

The repository has two Python drivers:
  * `SolucaoGemini/stress_tester.py` — runs a fixed battery of scenarios,
    30 trials each, classifies each trial by exit status / timeout, folds
    the outcomes into per-scenario statistics and derives a pass/fail
    verdict with a process exit code.
  * `trace_generator.py` — runs each scenario once with a per-invocation
    environment override designating a trace log path.

Both are embedded below.  Child-process execution is abstracted by an
oracle that, for each spawn, reports how the child behaved: it exited
with some return code after a measured elapsed time, it was still
running when the timeout fired, or the spawn itself failed (executable
missing / not executable — in Python an uncaught `FileNotFoundError`).
Durations are modelled as rationals.
-/

namespace DiningHarness

/-- A process environment: variable names to values (`os.environ` model). -/
def Env : Type := String → Option String

/-- `env_vars[k] = v` on a copy of the base environment. -/
def updateEnv (e : Env) (k v : String) : Env :=
  fun k2 => if k2 = k then some v else e k2

/-- What the harness observes from one `subprocess.run` call:
the child exited with a return code after `elapsed` seconds, the
timeout expired first, or spawning raised (binary missing or not
executable) — the latter exception is not caught by either driver. -/
inductive TrialResult where
  | exited (returncode : Int) (elapsed : ℚ)
  | timedOut
  | spawnError
deriving DecidableEq

/-- The three-way trial classification of the spec's data model. -/
inductive TrialOutcome where
  | success (duration : ℚ)
  | runtimeError
  | timeoutDeadlock
deriving DecidableEq

/-- The parameters of one `subprocess.run` call: argument vector,
optional environment override (`none` = inherit) and timeout. -/
structure Invocation where
  args : List String
  envOverride : Option Env
  timeoutSeconds : Nat

namespace StressTester

def BINARY_NAME : String := "./dining_hall"

def TIMEOUT_SECONDS : Nat := 5

def NUM_RUNS : Nat := 30

structure Scenario where
  users : Nat
  label : String
deriving DecidableEq

def SCENARIOS : List Scenario :=
  [⟨2, "Par (Minimal Check)"⟩,
   ⟨3, "Ímpar (Edge Case - Sobra 1?)"⟩,
   ⟨10, "Grupo Pequeno (Concorrência Padrão)"⟩,
   ⟨50, "Carga Alta (Stress Test)"⟩]

/-- The per-scenario accumulator of `run_stress_test`'s inner loop:
`success_count`, `fail_count`, `deadlocks`, and `avg_time`, which during
the loop is the running SUM of elapsed times of successful trials. -/
structure Acc where
  success_count : Nat
  fail_count : Nat
  deadlocks : Nat
  avg_time : ℚ
deriving DecidableEq

def Acc.init : Acc := ⟨0, 0, 0, 0⟩

/-- Loop body of `run_stress_test` (lines 77–102): on a normal exit,
branch on `proc.returncode == 0`; on `TimeoutExpired`, count a
deadlock; a spawn failure is an uncaught exception (`none`). -/
def stepTrial (acc : Acc) : TrialResult → Option Acc
  | .exited rc e =>
      if rc = 0 then
        some { acc with success_count := acc.success_count + 1,
                        avg_time := acc.avg_time + e }
      else
        some { acc with fail_count := acc.fail_count + 1 }
  | .timedOut => some { acc with deadlocks := acc.deadlocks + 1 }
  | .spawnError => none

/-- The outcome classification implicit in the same branches. -/
def classify : TrialResult → Option TrialOutcome
  | .exited rc e => if rc = 0 then some (.success e) else some .runtimeError
  | .timedOut => some .timeoutDeadlock
  | .spawnError => none

/-- Updating the accumulator by an already-classified outcome. -/
def applyOutcome (acc : Acc) : TrialOutcome → Acc
  | .success e => { acc with success_count := acc.success_count + 1,
                             avg_time := acc.avg_time + e }
  | .runtimeError => { acc with fail_count := acc.fail_count + 1 }
  | .timeoutDeadlock => { acc with deadlocks := acc.deadlocks + 1 }

/-- One entry of the summary (lines 108–114). -/
structure ScenarioStats where
  users : Nat
  success : Nat
  fails : Nat
  deadlocks : Nat
  avg_time : ℚ
deriving DecidableEq

/-- Lines 104–114: `final_avg = avg_time / success_count` when
`success_count > 0`, else `0`; package the statistics. -/
def finalizeStats (users : Nat) (acc : Acc) : ScenarioStats :=
  { users := users
    success := acc.success_count
    fails := acc.fail_count
    deadlocks := acc.deadlocks
    avg_time :=
      if acc.success_count > 0 then acc.avg_time / (acc.success_count : ℚ)
      else 0 }

/-- The subprocess call made for each trial of a scenario (line 81):
`[BINARY_NAME, str(users)]`, inherited environment, 5 s timeout. -/
def stressInvocation (users : Nat) : Invocation :=
  { args := [BINARY_NAME, toString users]
    envOverride := none
    timeoutSeconds := TIMEOUT_SECONDS }

/-- The trial loop `for i in range(NUM_RUNS)` over a list of indices;
an uncaught spawn exception aborts the whole loop. -/
def foldTrials (f : Nat → TrialResult) : List Nat → Acc → Option Acc
  | [], acc => some acc
  | i :: is, acc =>
      match stepTrial acc (f i) with
      | none => none
      | some acc2 => foldTrials f is acc2

/-- All `NUM_RUNS` trials of one scenario. -/
def runScenario (exec : Nat → Invocation → TrialResult) (s : Scenario) :
    Option Acc :=
  foldTrials (fun i => exec i (stressInvocation s.users))
    (List.range NUM_RUNS) Acc.init

/-- The scenario loop: each scenario's statistics are appended to the
summary in declaration order; an uncaught exception aborts the run. -/
def runScenarios (exec : Nat → Invocation → TrialResult) :
    List Scenario → Option (List ScenarioStats)
  | [] => some []
  | s :: ss =>
      match runScenario exec s with
      | none => none
      | some acc =>
          match runScenarios exec ss with
          | none => none
          | some rest => some (finalizeStats s.users acc :: rest)

/-- `run_stress_test` (lines 57–117): the full battery over `SCENARIOS`. -/
def run_stress_test (exec : Nat → Invocation → TrialResult) :
    Option (List ScenarioStats) :=
  runScenarios exec SCENARIOS

/-- The §4.3 aggregator: fold a sequence of classified outcomes of one
scenario into its statistics (the loop of lines 72–114, viewed on the
outcome sequence). -/
def aggregate (users : Nat) (os : List TrialOutcome) : ScenarioStats :=
  finalizeStats users (os.foldl applyOutcome Acc.init)

/-- The durations of the `success` outcomes of a sequence, in order. -/
def successDurations : List TrialOutcome → List ℚ
  | [] => []
  | .success e :: rest => e :: successDurations rest
  | .runtimeError :: rest => successDurations rest
  | .timeoutDeadlock :: rest => successDurations rest

/-- The `all_passed` flag loop of `print_report` (lines 127–137). -/
def all_passed_loop (flag : Bool) : List ScenarioStats → Bool
  | [] => flag
  | st :: rest =>
      all_passed_loop
        (if st.deadlocks > 0 ∨ st.fails > 0 then false else flag) rest

def all_passed (summary : List ScenarioStats) : Bool :=
  all_passed_loop true summary

/-- Exit code of `print_report` (lines 143–148): `sys.exit(0)` when
`all_passed`, `sys.exit(1)` otherwise. -/
def print_report_exit (summary : List ScenarioStats) : Nat :=
  if all_passed summary then 0 else 1

/-- Exit code of `__main__` (lines 150–153): compilation failure exits 1;
an uncaught exception during the battery exits nonzero (1); otherwise
`print_report` decides. -/
def stress_main_exit (compileOk : Bool)
    (exec : Nat → Invocation → TrialResult) : Nat :=
  if compileOk then
    match run_stress_test exec with
    | none => 1
    | some summary => print_report_exit summary
  else 1

end StressTester

namespace TraceGenerator

def BINARY_NAME : String := "./dining_hall_logged"

def OUTPUT_DIR : String := "trace_logs"

def SCENARIOS : List Nat := [2, 3, 10]

def DINING_LOG_FILE : String := "DINING_LOG_FILE"

/-- Line 29: `os.path.join(OUTPUT_DIR, f"trace_{n}_students.txt")`. -/
def log_filename (n : Nat) : String :=
  OUTPUT_DIR ++ "/trace_" ++ toString n ++ "_students.txt"

/-- Lines 33–42: the subprocess call for scenario `n` — a copy of the
caller's environment with `DINING_LOG_FILE` set to the derived path,
argument vector `[BINARY_NAME, str(n)]`, 10 s safety timeout. -/
def traceInvocation (baseEnv : Env) (n : Nat) : Invocation :=
  { args := [BINARY_NAME, toString n]
    envOverride := some (updateEnv baseEnv DINING_LOG_FILE (log_filename n))
    timeoutSeconds := 10 }

/-- The scenario loop of `generate_traces` (lines 28–46): `TimeoutExpired`
and `CalledProcessError` are caught and the loop continues; a spawn
failure is uncaught and aborts (`false`).  Returns the invocations made
and whether the loop completed normally. -/
def traceLoop (baseEnv : Env) (exec : Nat → TrialResult) :
    List Nat → List Invocation × Bool
  | [] => ([], true)
  | n :: ns =>
      let inv := traceInvocation baseEnv n
      match exec n with
      | .spawnError => ([inv], false)
      | .exited _ _ =>
          let r := traceLoop baseEnv exec ns
          (inv :: r.1, r.2)
      | .timedOut =>
          let r := traceLoop baseEnv exec ns
          (inv :: r.1, r.2)

/-- `generate_traces` (lines 25–48) over the fixed scenario list. -/
def generate_traces (baseEnv : Env) (exec : Nat → TrialResult) :
    List Invocation × Bool :=
  traceLoop baseEnv exec SCENARIOS

/-- Exit code of `__main__` (lines 50–52): `setup()` failure exits 1; an
uncaught exception exits nonzero (1); otherwise the script falls off the
end and exits 0. -/
def trace_main_exit (setupOk : Bool) (baseEnv : Env)
    (exec : Nat → TrialResult) : Nat :=
  if setupOk then (if (generate_traces baseEnv exec).2 then 0 else 1)
  else 1

end TraceGenerator

namespace StressTester

/-! ### The verdict of `print_report` -/

lemma all_passed_loop_true_iff (l : List ScenarioStats) :
    ∀ flag, all_passed_loop flag l = true ↔
      (flag = true ∧ ∀ st ∈ l, st.deadlocks = 0 ∧ st.fails = 0) := by
  induction l with
  | nil => intro flag; simp [all_passed_loop]
  | cons st rest ih =>
      intro flag
      rw [all_passed_loop, ih]
      simp only [List.mem_cons, forall_eq_or_imp]
      split
      · rename_i h
        constructor
        · rintro ⟨hf, -⟩; cases hf
        · rintro ⟨-, ⟨h1, h2⟩, -⟩; exact absurd h (by omega)
      · rename_i h
        push_neg at h
        constructor
        · rintro ⟨hf, hrest⟩
          exact ⟨hf, ⟨by omega, by omega⟩, hrest⟩
        · rintro ⟨hf, -, hrest⟩
          exact ⟨hf, hrest⟩

/-- C1: the overall verdict passes iff every scenario's statistics have
zero deadlocks and zero runtime errors; a passing verdict exits with
code 0, and any scenario with a deadlock or runtime error forces exit
code 1. -/
theorem verdict_iff_clean (summary : List ScenarioStats) :
    (all_passed summary = true ↔
      ∀ st ∈ summary, st.deadlocks = 0 ∧ st.fails = 0) ∧
    (all_passed summary = true → print_report_exit summary = 0) ∧
    ((∃ st ∈ summary, st.deadlocks > 0 ∨ st.fails > 0) →
      print_report_exit summary = 1) := by
  have hiff := all_passed_loop_true_iff summary true
  simp only [true_and] at hiff
  refine ⟨hiff, ?_, ?_⟩
  · intro h; simp [print_report_exit, h]
  · rintro ⟨st, hmem, hbad⟩
    have hnot : ¬ all_passed summary = true := by
      rw [show all_passed summary = all_passed_loop true summary from rfl, hiff]
      intro hall
      have := hall st hmem
      omega
    simp [print_report_exit, hnot]

theorem verdict_iff_clean_witness :
    print_report_exit [⟨2, 30, 0, 0, 0⟩] = 0 :=
  (verdict_iff_clean [⟨2, 30, 0, 0, 0⟩]).2.1
    ((verdict_iff_clean [⟨2, 30, 0, 0, 0⟩]).1.mpr (by decide))

/-! ### Outcome classification of one trial -/

/-- C2: every trial whose spawn succeeded is classified into exactly one
of the three outcomes: exit status zero within the timeout gives
`success` with the measured elapsed time, a nonzero exit status gives
`runtimeError`, and expiry of the timeout gives `timeoutDeadlock`. -/
theorem trial_classification_exhaustive (r : TrialResult) :
    (∀ e, r = TrialResult.exited 0 e →
      classify r = some (TrialOutcome.success e)) ∧
    (∀ rc e, r = TrialResult.exited rc e → rc ≠ 0 →
      classify r = some TrialOutcome.runtimeError) ∧
    (r = TrialResult.timedOut →
      classify r = some TrialOutcome.timeoutDeadlock) ∧
    (r ≠ TrialResult.spawnError → ∃! o, classify r = some o) := by
  refine ⟨?_, ?_, ?_, ?_⟩
  · rintro e rfl; simp [classify]
  · rintro rc e rfl hrc; simp [classify, hrc]
  · rintro rfl; simp [classify]
  · intro h
    cases r with
    | exited rc e =>
        by_cases hrc : rc = 0
        · subst hrc
          refine ⟨TrialOutcome.success e, by simp [classify], ?_⟩
          intro y hy
          simpa [classify, eq_comm] using hy
        · refine ⟨TrialOutcome.runtimeError, by simp [classify, hrc], ?_⟩
          intro y hy
          simpa [classify, hrc, eq_comm] using hy
    | timedOut =>
        refine ⟨TrialOutcome.timeoutDeadlock, by simp [classify], ?_⟩
        intro y hy
        simpa [classify, eq_comm] using hy
    | spawnError => exact absurd rfl h

theorem trial_classification_witness :
    classify (TrialResult.exited 0 (7 / 2)) =
      some (TrialOutcome.success (7 / 2)) :=
  (trial_classification_exhaustive _).1 _ rfl

/-! ### The verdict reads only the failure counters -/

lemma all_passed_loop_congr {s1 s2 : List ScenarioStats}
    (h : List.Forall₂
      (fun a b => a.fails = b.fails ∧ a.deadlocks = b.deadlocks) s1 s2) :
    ∀ flag, all_passed_loop flag s1 = all_passed_loop flag s2 := by
  induction h with
  | nil => intro flag; rfl
  | cons hab _ ih =>
      intro flag
      rw [all_passed_loop, all_passed_loop, hab.1, hab.2]
      exact ih _

/-- C10: the verdict and exit code depend only on the `fails` and
`deadlocks` fields of the summary entries: two summaries that agree
pairwise on those two fields get the same `all_passed` flag and the same
exit code, whatever their users, success counts or average times. -/
theorem verdict_noninterference (s1 s2 : List ScenarioStats)
    (h : List.Forall₂
      (fun a b => a.fails = b.fails ∧ a.deadlocks = b.deadlocks) s1 s2) :
    all_passed s1 = all_passed s2 ∧
    print_report_exit s1 = print_report_exit s2 := by
  have h2 := all_passed_loop_congr h true
  refine ⟨h2, ?_⟩
  simp only [print_report_exit, all_passed, h2]

theorem verdict_noninterference_witness :
    all_passed [⟨2, 30, 0, 0, 0⟩] = all_passed [⟨50, 7, 0, 0, 19 / 3⟩] ∧
    print_report_exit [⟨2, 30, 0, 0, 0⟩] =
      print_report_exit [⟨50, 7, 0, 0, 19 / 3⟩] :=
  verdict_noninterference [⟨2, 30, 0, 0, 0⟩] [⟨50, 7, 0, 0, 19 / 3⟩]
    (List.Forall₂.cons ⟨rfl, rfl⟩ List.Forall₂.nil)

/-! ### Counter bookkeeping of the trial loop -/

lemma stepTrial_eq_classify (acc : Acc) (r : TrialResult) :
    stepTrial acc r = (classify r).map (applyOutcome acc) := by
  cases r with
  | exited rc e =>
      by_cases hrc : rc = 0 <;>
        simp [stepTrial, classify, applyOutcome, hrc]
  | timedOut => rfl
  | spawnError => rfl

lemma stepTrial_counts {acc acc1 : Acc} {r : TrialResult}
    (h : stepTrial acc r = some acc1) :
    acc1.success_count + acc1.fail_count + acc1.deadlocks =
      acc.success_count + acc.fail_count + acc.deadlocks + 1 := by
  cases r with
  | exited rc e =>
      by_cases hrc : rc = 0 <;> simp [stepTrial, hrc] at h <;>
        subst h <;> simp <;> omega
  | timedOut =>
      simp [stepTrial] at h
      subst h
      simp
      omega
  | spawnError => simp [stepTrial] at h

lemma foldTrials_counts (f : Nat → TrialResult) :
    ∀ (is : List Nat) (acc acc2 : Acc),
      foldTrials f is acc = some acc2 →
      acc2.success_count + acc2.fail_count + acc2.deadlocks =
        acc.success_count + acc.fail_count + acc.deadlocks + is.length := by
  intro is
  induction is with
  | nil =>
      intro acc acc2 h
      simp [foldTrials] at h
      subst h
      simp
  | cons i is ih =>
      intro acc acc2 h
      rw [foldTrials] at h
      cases hs : stepTrial acc (f i) with
      | none => rw [hs] at h; cases h
      | some acc1 =>
          rw [hs] at h
          have h2 := ih acc1 acc2 h
          have h1 := stepTrial_counts hs
          simp only [List.length_cons]
          omega

lemma runScenarios_mem (exec : Nat → Invocation → TrialResult) :
    ∀ (ss : List Scenario) (summary : List ScenarioStats),
      runScenarios exec ss = some summary →
      ∀ st ∈ summary, ∃ s ∈ ss, ∃ acc,
        runScenario exec s = some acc ∧ st = finalizeStats s.users acc := by
  intro ss
  induction ss with
  | nil =>
      intro summary h st hst
      simp [runScenarios] at h
      subst h
      cases hst
  | cons s ss ih =>
      intro summary h st hst
      rw [runScenarios] at h
      cases h1 : runScenario exec s with
      | none => rw [h1] at h; cases h
      | some acc =>
          rw [h1] at h
          cases h2 : runScenarios exec ss with
          | none => rw [h2] at h; cases h
          | some rest =>
              rw [h2] at h
              injection h with h
              subst h
              rcases List.mem_cons.mp hst with rfl | hst2
              · exact ⟨s, List.mem_cons_self s ss, acc, h1, rfl⟩
              · obtain ⟨t, ht, acc2, hacc2, hfin⟩ := ih rest h2 st hst2
                exact ⟨t, List.mem_cons_of_mem s ht, acc2, hacc2, hfin⟩

lemma applyOutcome_counts (acc : Acc) (o : TrialOutcome) :
    (applyOutcome acc o).success_count + (applyOutcome acc o).fail_count +
      (applyOutcome acc o).deadlocks =
      acc.success_count + acc.fail_count + acc.deadlocks + 1 := by
  cases o <;> simp [applyOutcome] <;> omega

lemma foldl_applyOutcome_counts (os : List TrialOutcome) :
    ∀ acc : Acc,
      (os.foldl applyOutcome acc).success_count +
        (os.foldl applyOutcome acc).fail_count +
        (os.foldl applyOutcome acc).deadlocks =
        acc.success_count + acc.fail_count + acc.deadlocks + os.length := by
  induction os with
  | nil => intro acc; simp
  | cons o os ih =>
      intro acc
      rw [List.foldl_cons, ih]
      have := applyOutcome_counts acc o
      simp only [List.length_cons]
      omega

/-- C3: for every scenario, the three counters sum to the configured
trial count: `aggregate` over any outcome sequence satisfies
`success + fails + deadlocks = length`, and every entry of a completed
stress run satisfies `success + fails + deadlocks = NUM_RUNS = 30`. -/
theorem counters_sum_to_trials :
    (∀ (users : Nat) (os : List TrialOutcome),
      (aggregate users os).success + (aggregate users os).fails +
        (aggregate users os).deadlocks = os.length) ∧
    NUM_RUNS = 30 ∧
    (∀ (exec : Nat → Invocation → TrialResult)
      (summary : List ScenarioStats),
      run_stress_test exec = some summary →
      ∀ st ∈ summary,
        st.success + st.fails + st.deadlocks = NUM_RUNS) := by
  refine ⟨?_, rfl, ?_⟩
  · intro users os
    have := foldl_applyOutcome_counts os Acc.init
    simpa [aggregate, finalizeStats, Acc.init] using this
  · intro exec summary h st hst
    obtain ⟨s, _hs, acc, hacc, rfl⟩ :=
      runScenarios_mem exec SCENARIOS summary h st hst
    have := foldTrials_counts _ (List.range NUM_RUNS) Acc.init acc hacc
    simpa [finalizeStats, Acc.init] using this

theorem counters_sum_witness :
    (⟨2, 0, 0, 30, 0⟩ : ScenarioStats).success +
      (⟨2, 0, 0, 30, 0⟩ : ScenarioStats).fails +
      (⟨2, 0, 0, 30, 0⟩ : ScenarioStats).deadlocks = NUM_RUNS :=
  counters_sum_to_trials.2.2 (fun _ _ => TrialResult.timedOut)
    [⟨2, 0, 0, 30, 0⟩, ⟨3, 0, 0, 30, 0⟩, ⟨10, 0, 0, 30, 0⟩,
     ⟨50, 0, 0, 30, 0⟩]
    (by decide) ⟨2, 0, 0, 30, 0⟩ (by simp)

/-! ### The average success duration -/

lemma foldl_applyOutcome_success (os : List TrialOutcome) :
    ∀ acc : Acc,
      (os.foldl applyOutcome acc).success_count =
        acc.success_count + (successDurations os).length ∧
      (os.foldl applyOutcome acc).avg_time =
        acc.avg_time + (successDurations os).sum := by
  induction os with
  | nil => intro acc; simp [successDurations]
  | cons o os ih =>
      intro acc
      cases o with
      | success e =>
          rw [List.foldl_cons]
          obtain ⟨h1, h2⟩ := ih (applyOutcome acc (.success e))
          refine ⟨?_, ?_⟩
          · rw [h1]; simp [applyOutcome, successDurations]; omega
          · rw [h2]; simp [applyOutcome, successDurations]; ring
      | runtimeError =>
          rw [List.foldl_cons]
          obtain ⟨h1, h2⟩ := ih (applyOutcome acc .runtimeError)
          refine ⟨?_, ?_⟩
          · rw [h1]; simp [applyOutcome, successDurations]
          · rw [h2]; simp [applyOutcome, successDurations]
      | timeoutDeadlock =>
          rw [List.foldl_cons]
          obtain ⟨h1, h2⟩ := ih (applyOutcome acc .timeoutDeadlock)
          refine ⟨?_, ?_⟩
          · rw [h1]; simp [applyOutcome, successDurations]
          · rw [h2]; simp [applyOutcome, successDurations]

lemma aggregate_avg_eq (users : Nat) (os : List TrialOutcome) :
    (aggregate users os).success = (successDurations os).length ∧
    (aggregate users os).avg_time =
      (if (successDurations os).length > 0 then
        (successDurations os).sum / ((successDurations os).length : ℚ)
      else 0) := by
  obtain ⟨h1, h2⟩ := foldl_applyOutcome_success os Acc.init
  have h1' : (os.foldl applyOutcome Acc.init).success_count =
      (successDurations os).length := by
    rw [h1]; simp [Acc.init]
  have h2' : (os.foldl applyOutcome Acc.init).avg_time =
      (successDurations os).sum := by
    rw [h2]; simp [Acc.init]
  constructor
  · simp [aggregate, finalizeStats, h1']
  · simp [aggregate, finalizeStats, h1', h2']

/-- C4: the reported average equals the arithmetic mean of the durations
of the successful trials only (`0` when there is no success); when there
is at least one success it lies between any lower and any upper bound of
those durations — in particular within `[min, max]` — and appending a
non-success outcome leaves it unchanged. -/
theorem average_success_duration_spec (users : Nat)
    (os : List TrialOutcome) :
    (aggregate users os).success = (successDurations os).length ∧
    ((successDurations os).length = 0 →
      (aggregate users os).avg_time = 0) ∧
    ((successDurations os).length ≠ 0 →
      (aggregate users os).avg_time =
        (successDurations os).sum / ((successDurations os).length : ℚ)) ∧
    (∀ m M : ℚ, (successDurations os).length ≠ 0 →
      (∀ x ∈ successDurations os, m ≤ x) →
      (∀ x ∈ successDurations os, x ≤ M) →
      m ≤ (aggregate users os).avg_time ∧
        (aggregate users os).avg_time ≤ M) ∧
    (∀ o : TrialOutcome, (∀ d : ℚ, o ≠ TrialOutcome.success d) →
      (aggregate users (os ++ [o])).avg_time =
        (aggregate users os).avg_time) := by
  obtain ⟨h1, h2⟩ := aggregate_avg_eq users os
  have hlen0 : (successDurations os).length = 0 →
      (aggregate users os).avg_time = 0 := by
    intro h0; rw [h2]; simp [h0]
  have hlenpos : (successDurations os).length ≠ 0 →
      (aggregate users os).avg_time =
        (successDurations os).sum / ((successDurations os).length : ℚ) := by
    intro h0; rw [h2]; simp [Nat.pos_of_ne_zero h0]
  refine ⟨h1, hlen0, hlenpos, ?_, ?_⟩
  · intro m M hne hm hM
    have hpos : (0 : ℚ) < ((successDurations os).length : ℚ) := by
      exact_mod_cast Nat.pos_of_ne_zero hne
    rw [hlenpos hne]
    constructor
    · rw [le_div_iff₀ hpos]
      have := List.card_nsmul_le_sum (successDurations os) m hm
      rwa [nsmul_eq_mul, mul_comm] at this
    · rw [div_le_iff₀ hpos]
      have := List.sum_le_card_nsmul (successDurations os) M hM
      rwa [nsmul_eq_mul, mul_comm] at this
  · intro o ho
    cases o with
    | success d => exact absurd rfl (ho d)
    | runtimeError =>
        simp [aggregate, finalizeStats, List.foldl_append, applyOutcome]
    | timeoutDeadlock =>
        simp [aggregate, finalizeStats, List.foldl_append, applyOutcome]

theorem average_success_duration_witness :
    1 ≤ (aggregate 2 [TrialOutcome.success 1, TrialOutcome.runtimeError,
          TrialOutcome.success 3]).avg_time ∧
      (aggregate 2 [TrialOutcome.success 1, TrialOutcome.runtimeError,
          TrialOutcome.success 3]).avg_time ≤ 3 :=
  (average_success_duration_spec 2
      [TrialOutcome.success 1, TrialOutcome.runtimeError,
       TrialOutcome.success 3]).2.2.2.1 1 3
    (by decide) (by decide) (by decide)

/-! ### Aggregation is a pure, order-independent fold -/

lemma applyOutcome_comm (z : Acc) (x y : TrialOutcome) :
    applyOutcome (applyOutcome z x) y =
      applyOutcome (applyOutcome z y) x := by
  cases x <;> cases y <;> simp [applyOutcome, add_right_comm]

/-- C9: `aggregate` is deterministic — equal outcome sequences give equal
statistics — and order-independent: any permutation of the outcome
sequence yields the same `ScenarioStatistics`. -/
theorem aggregate_deterministic_perm (users : Nat)
    (os os2 : List TrialOutcome) (h : os.Perm os2) :
    aggregate users os = aggregate users os ∧
    aggregate users os = aggregate users os2 := by
  refine ⟨rfl, ?_⟩
  unfold aggregate
  rw [h.foldl_eq' (fun x _ y _ z => applyOutcome_comm z x y) Acc.init]

theorem aggregate_deterministic_perm_witness :
    aggregate 10 [TrialOutcome.runtimeError, TrialOutcome.success 2] =
      aggregate 10 [TrialOutcome.success 2, TrialOutcome.runtimeError] :=
  (aggregate_deterministic_perm 10
      [TrialOutcome.runtimeError, TrialOutcome.success 2]
      [TrialOutcome.success 2, TrialOutcome.runtimeError]
      (List.Perm.swap (TrialOutcome.success 2) TrialOutcome.runtimeError
        [])).2

/-! ### The fixed battery configuration and summary order -/

lemma runScenarios_users (exec : Nat → Invocation → TrialResult) :
    ∀ (ss : List Scenario) (summary : List ScenarioStats),
      runScenarios exec ss = some summary →
      summary.map ScenarioStats.users = ss.map Scenario.users := by
  intro ss
  induction ss with
  | nil =>
      intro summary h
      simp [runScenarios] at h
      subst h
      rfl
  | cons s ss ih =>
      intro summary h
      rw [runScenarios] at h
      cases h1 : runScenario exec s with
      | none => rw [h1] at h; cases h
      | some acc =>
          rw [h1] at h
          cases h2 : runScenarios exec ss with
          | none => rw [h2] at h; cases h
          | some rest =>
              rw [h2] at h
              injection h with h
              subst h
              simp [finalizeStats, ih rest h2]

/-- C6: the stress battery is the fixed scenario list with concurrency
degrees 2, 3, 10, 50, runs 30 trials per scenario with a 5-second
timeout on each subprocess call, and any completed run's summary has
exactly one entry per scenario, in declaration order, whatever the
individual trial outcomes were. -/
theorem stress_config_and_order :
    SCENARIOS.map Scenario.users = [2, 3, 10, 50] ∧
    NUM_RUNS = 30 ∧
    TIMEOUT_SECONDS = 5 ∧
    (∀ u, (stressInvocation u).timeoutSeconds = 5) ∧
    (∀ u, (stressInvocation u).args = [BINARY_NAME, toString u]) ∧
    ∀ (exec : Nat → Invocation → TrialResult)
      (summary : List ScenarioStats),
      run_stress_test exec = some summary →
      summary.map ScenarioStats.users = [2, 3, 10, 50] := by
  refine ⟨rfl, rfl, rfl, fun u => rfl, fun u => rfl, ?_⟩
  intro exec summary h
  rw [runScenarios_users exec SCENARIOS summary h]
  rfl

theorem stress_config_witness :
    ([⟨2, 0, 0, 30, 0⟩, ⟨3, 0, 0, 30, 0⟩, ⟨10, 0, 0, 30, 0⟩,
      ⟨50, 0, 0, 30, 0⟩] : List ScenarioStats).map ScenarioStats.users =
      [2, 3, 10, 50] :=
  stress_config_and_order.2.2.2.2.2 (fun _ _ => TrialResult.timedOut)
    [⟨2, 0, 0, 30, 0⟩, ⟨3, 0, 0, 30, 0⟩, ⟨10, 0, 0, 30, 0⟩,
     ⟨50, 0, 0, 30, 0⟩] (by decide)

/-! ### A failed spawn aborts the whole run -/

lemma foldTrials_none (f : Nat → TrialResult) :
    ∀ is : List Nat, (∃ i ∈ is, f i = TrialResult.spawnError) →
      ∀ acc, foldTrials f is acc = none := by
  intro is
  induction is with
  | nil => rintro ⟨i, hi, -⟩; cases hi
  | cons j js ih =>
      rintro ⟨i, hi, hf⟩ acc
      rw [foldTrials]
      rcases List.mem_cons.mp hi with rfl | hi2
      · rw [hf]; rfl
      · cases hs : stepTrial acc (f j) with
        | none => rfl
        | some acc2 => exact ih ⟨i, hi2, hf⟩ acc2

lemma runScenarios_none (exec : Nat → Invocation → TrialResult) :
    ∀ ss : List Scenario, (∃ s ∈ ss, runScenario exec s = none) →
      runScenarios exec ss = none := by
  intro ss
  induction ss with
  | nil => rintro ⟨s, hs, -⟩; cases hs
  | cons t ts ih =>
      rintro ⟨s, hs, hnone⟩
      rw [runScenarios]
      rcases List.mem_cons.mp hs with rfl | hs2
      · rw [hnone]
      · cases h1 : runScenario exec t with
        | none => rfl
        | some acc => rw [ih ⟨s, hs2, hnone⟩]

/-- C7: a spawn failure (executable missing or not executable) is not
classified as any trial outcome and increments no counter — the loop
body yields no updated accumulator — and, being an uncaught exception,
it aborts the entire run, which then terminates with exit code 1. -/
theorem spawn_error_aborts_run (exec : Nat → Invocation → TrialResult)
    (h : ∃ s ∈ SCENARIOS, ∃ i ∈ List.range NUM_RUNS,
      exec i (stressInvocation s.users) = TrialResult.spawnError) :
    classify TrialResult.spawnError = none ∧
    (∀ acc, stepTrial acc TrialResult.spawnError = none) ∧
    run_stress_test exec = none ∧
    stress_main_exit true exec = 1 := by
  obtain ⟨s, hs, i, hi, hspawn⟩ := h
  have hscen : runScenario exec s = none :=
    foldTrials_none _ (List.range NUM_RUNS) ⟨i, hi, hspawn⟩ Acc.init
  have hrun : run_stress_test exec = none :=
    runScenarios_none exec SCENARIOS ⟨s, hs, hscen⟩
  refine ⟨rfl, fun acc => rfl, hrun, ?_⟩
  simp [stress_main_exit, hrun]

theorem spawn_error_witness :
    run_stress_test (fun _ _ => TrialResult.spawnError) = none ∧
    stress_main_exit true (fun _ _ => TrialResult.spawnError) = 1 :=
  ⟨(spawn_error_aborts_run (fun _ _ => TrialResult.spawnError)
      (by decide)).2.2.1,
   (spawn_error_aborts_run (fun _ _ => TrialResult.spawnError)
      (by decide)).2.2.2⟩

end StressTester

namespace TraceGenerator

/-! ### The trace driver -/

lemma traceLoop_complete (baseEnv : Env) (exec : Nat → TrialResult) :
    ∀ ns : List Nat, (∀ n ∈ ns, exec n ≠ TrialResult.spawnError) →
      traceLoop baseEnv exec ns =
        (ns.map (traceInvocation baseEnv), true) := by
  intro ns
  induction ns with
  | nil => intro h; rfl
  | cons n ns ih =>
      intro h
      rw [traceLoop]
      cases hx : exec n with
      | exited rc e =>
          rw [ih (fun m hm => h m (List.mem_cons_of_mem n hm))]
          rfl
      | timedOut =>
          rw [ih (fun m hm => h m (List.mem_cons_of_mem n hm))]
          rfl
      | spawnError => exact absurd hx (h n (List.mem_cons_self n ns))

/-- C5: the trace driver survives every per-scenario failure: whenever
every spawn succeeds (the binary exists), a timeout or a nonzero exit in
any scenario is caught, the loop still visits every scenario, the loop
completes, and the entry point exits with status 0 — the exit status
does not depend on the scenarios' outcomes. -/
theorem trace_driver_nonfatal (baseEnv : Env) (exec : Nat → TrialResult)
    (h : ∀ n ∈ SCENARIOS, exec n ≠ TrialResult.spawnError) :
    (generate_traces baseEnv exec).2 = true ∧
    (generate_traces baseEnv exec).1.length = SCENARIOS.length ∧
    trace_main_exit true baseEnv exec = 0 := by
  have hc := traceLoop_complete baseEnv exec SCENARIOS h
  refine ⟨?_, ?_, ?_⟩
  · rw [generate_traces, hc]
  · rw [generate_traces, hc]; simp
  · simp [trace_main_exit, generate_traces, hc]

theorem trace_driver_nonfatal_witness :
    trace_main_exit true (fun _ => none)
      (fun _ => TrialResult.timedOut) = 0 :=
  (trace_driver_nonfatal (fun _ => none) (fun _ => TrialResult.timedOut)
    (by decide)).2.2

/-- C8: for each degree in the fixed list, the driver makes exactly one
invocation, in list order; the log path is the deterministic function
`log_filename` of the degree, distinct degrees getting distinct paths;
and the path reaches the child through an environment override that sets
exactly the `DINING_LOG_FILE` variable of a copy of the base
environment, for that single invocation. -/
theorem trace_paths_deterministic (baseEnv : Env)
    (exec : Nat → TrialResult)
    (h : ∀ n ∈ SCENARIOS, exec n ≠ TrialResult.spawnError) :
    (generate_traces baseEnv exec).1 =
      SCENARIOS.map (traceInvocation baseEnv) ∧
    (∀ n, (traceInvocation baseEnv n).args =
      [BINARY_NAME, toString n]) ∧
    (∀ n, (traceInvocation baseEnv n).envOverride =
      some (updateEnv baseEnv DINING_LOG_FILE (log_filename n))) ∧
    (∀ n, updateEnv baseEnv DINING_LOG_FILE (log_filename n)
      DINING_LOG_FILE = some (log_filename n)) ∧
    (∀ n k, k ≠ DINING_LOG_FILE →
      updateEnv baseEnv DINING_LOG_FILE (log_filename n) k = baseEnv k) ∧
    List.Pairwise (fun a b => log_filename a ≠ log_filename b)
      SCENARIOS := by
  refine ⟨?_, fun n => rfl, fun n => rfl, ?_, ?_, ?_⟩
  · rw [generate_traces, traceLoop_complete baseEnv exec SCENARIOS h]
  · intro n; simp [updateEnv]
  · intro n k hk; simp [updateEnv, hk]
  · decide

theorem trace_paths_witness :
    (generate_traces (fun _ => none)
        (fun _ => TrialResult.exited 0 1)).1 =
      SCENARIOS.map (traceInvocation (fun _ => none)) :=
  (trace_paths_deterministic (fun _ => none)
    (fun _ => TrialResult.exited 0 1) (by decide)).1

end TraceGenerator

end DiningHarness
